import Mathlib

/-!
Verification development for the markdown_illustrator repository.

Shallow embedding of the core pipeline (structural Markdown parser,
placement/decision engine, regeneration reconciler) translated from
`src/parser.py`, `src/analyzer.py` and `src/regenerate.py`, together with
theorems settling the frozen claims about that code.

Conventions of the embedding:
  * Python strings are Lean `String`s; all scanning is done on `String.toList`
    so every operation is a plain structural recursion the kernel can
    evaluate.
  * Python's `re` character class `\s` (and `str.strip`) is modelled by
    `pyIsSpace`, covering the whitespace characters relevant to this code
    base; `\w` and `\d` are modelled over their ASCII repertoire.
  * Python `int` becomes `Int` wherever a value can be negative or is
    compared against a configuration value (gap counters, caps, recovered
    ordinals); list positions that are always enumeration indices stay `Nat`.
  * Loops become structural recursions; the parser's main scan, whose stride
    varies, is written with a fuel argument equal to the number of input
    lines, and a theorem shows extra fuel never changes the result (the
    Python `while` terminates because every step consumes at least one line).
  * Calls into external collaborators (LLM prompt generation) are modelled as
    an opaque function parameter `promptFn`: they influence only the prompt
    text carried inside a decision, never the control flow that the claims
    are about.  The document classifier's outcome is the `docType` parameter
    (`"normal"` when classification is disabled or fails).
-/

/-! ## Python-style string primitives -/

/-- The whitespace class used by Python's `str.strip` and the regex class
`\s` (over the repertoire appearing in this code base). -/
def pyIsSpace (c : Char) : Bool :=
  c == ' ' || c == '\t' || c == '\n' || c == '\r' || c == '\x0b' || c == '\x0c' ||
  c == '\x1c' || c == '\x1d' || c == '\x1e' || c == '\x1f' || c == '\u0085' ||
  c == '\u00A0' || c == '\u3000'

/-- ASCII repertoire of the regex class `\w`. -/
def pyIsWord (c : Char) : Bool := c.isAlpha || c.isDigit || c == '_'

/-- `str.strip()`. -/
def pyStrip (s : String) : String :=
  String.mk (((s.toList.dropWhile pyIsSpace).reverse.dropWhile pyIsSpace).reverse)

/-- `str.rstrip()`. -/
def pyRstrip (s : String) : String :=
  String.mk ((s.toList.reverse.dropWhile pyIsSpace).reverse)

/-- `str.lower()` (ASCII letters; other characters are unchanged, as for the
CJK text this code handles). -/
def pyLower (s : String) : String := String.mk (s.toList.map Char.toLower)

/-- Whether `needle` occurs as a contiguous sublist of `hay`. -/
def subOccurs (needle : List Char) : List Char → Bool
  | [] => needle.isEmpty
  | c :: cs => needle.isPrefixOf (c :: cs) || subOccurs needle cs

/-- Python's `needle in hay` substring test. -/
def strContains (hay needle : String) : Bool := subOccurs needle.toList hay.toList

/-- Python's `hay.startswith (pre)`. -/
def pyStartsWith (hay pre : String) : Bool := pre.toList.isPrefixOf hay.toList

/-- One step of Python's non-overlapping, left-to-right `str.count`; the fuel
is the length of the scanned text (adequate whenever the needle is nonempty,
as at every call site). -/
def countOccurGo (needle : List Char) : Nat → List Char → Nat
  | 0, _ => 0
  | _, [] => 0
  | fuel + 1, c :: cs =>
      if needle.isPrefixOf (c :: cs) then
        1 + countOccurGo needle fuel ((c :: cs).drop needle.length)
      else countOccurGo needle fuel cs

/-- Python's `hay.count (needle)` for a nonempty needle. -/
def pyCount (hay needle : String) : Nat :=
  countOccurGo needle.toList hay.toList.length hay.toList

/-- One step of Python's `str.replace`; fuel as in `countOccurGo`. -/
def replaceGo (needle repl : List Char) : Nat → List Char → List Char
  | 0, l => l
  | _, [] => []
  | fuel + 1, c :: cs =>
      if needle.isPrefixOf (c :: cs) then
        repl ++ replaceGo needle repl fuel ((c :: cs).drop needle.length)
      else c :: replaceGo needle repl fuel cs

/-- Python's `s.replace (needle, repl)` for a nonempty needle. -/
def pyReplace (s needle repl : String) : String :=
  String.mk (replaceGo needle.toList repl.toList s.toList.length s.toList)

/-- Numeric value of a run of ASCII digits (`int` applied to a `\d+` match). -/
def natOfDigits (ds : List Char) : Nat :=
  ds.foldl (fun acc c => acc * 10 + (c.toNat - '0'.toNat)) 0

/-- Split on a separator character, keeping empty groups: the behaviour of
Python's `content.split (sep)` for a one-character separator. -/
def splitCharsOn (sep : Char) : List Char → List (List Char)
  | [] => [[]]
  | c :: cs =>
      if c == sep then [] :: splitCharsOn sep cs
      else
        match splitCharsOn sep cs with
        | [] => [[c]]
        | g :: gs => (c :: g) :: gs

/-- Python's `content.split ('\n')`. -/
def pySplitLines (s : String) : List String :=
  (splitCharsOn '\n' s.toList).map String.mk

/-! ## Structural parser (`src/parser.py`)

`ElementType`, `MarkdownElement`, `MarkdownDocument` and `MarkdownParser`.
Each compiled regex of `MarkdownParser` becomes one decidable predicate on a
line; its name records which pattern it models. -/

inductive ElementType where
  | heading
  | paragraph
  | code_block
  | list
  | quote
  | horizontal_rule
  | table
  | empty
deriving DecidableEq, Repr

/-- The `.value` string of the Python enum member. -/
def ElementType.value : ElementType → String
  | .heading => "heading"
  | .paragraph => "paragraph"
  | .code_block => "code_block"
  | .list => "list"
  | .quote => "quote"
  | .horizontal_rule => "horizontal_rule"
  | .table => "table"
  | .empty => "empty"

structure MarkdownElement where
  type : ElementType
  content : String
  level : Nat := 0
  position : Nat := 0
  raw_line : String := ""
  word_count : Nat := 0
  line_count : Nat := 0
  need_image : Bool := false
  image_type : Option String := none
  image_prompt : Option String := none
deriving DecidableEq, Repr

/-- `MarkdownElement.__post_init__`: `word_count` is the number of
non-whitespace characters of `content`. -/
def mkElement (t : ElementType) (content : String) (level : Nat) (raw : String) :
    MarkdownElement :=
  { type := t, content := content, level := level, raw_line := raw,
    word_count := (content.toList.filter (fun c => !(pyIsSpace c))).length }

structure MarkdownDocument where
  elements : List MarkdownElement := []
  title : String := ""
deriving DecidableEq, Repr

/-- `EMPTY_PATTERN = ^\s*$`. -/
def emptyMatch (l : String) : Bool := l.toList.all pyIsSpace

/-- `HEADING_PATTERN = ^(#{1,6})\s+(.+)$`: `some (level, content)` for the
captured groups.  The hash run must have length 1..6 (a 7th hash makes every
backtracking attempt place a `#` where `\s` is required); `\s+` is greedy but
gives back one character when the remainder is all whitespace, so `.+` still
captures at least one character. -/
def headingMatch (l : String) : Option (Nat × String) :=
  let cs := l.toList
  let hashes := cs.takeWhile (fun c => c == '#')
  let rest := cs.dropWhile (fun c => c == '#')
  if 1 ≤ hashes.length && hashes.length ≤ 6 && 2 ≤ rest.length &&
      pyIsSpace (rest.headD ' ') then
    let stripped := rest.dropWhile pyIsSpace
    some (hashes.length,
      String.mk (if stripped.isEmpty then [rest.getLastD ' '] else stripped))
  else none

/-- The backquote character (written by code point). -/
def fenceChar : Char := '\u0060'

/-- `CODE_BLOCK_PATTERN = ^```(\w*)\s*$`. -/
def codeFenceMatch (l : String) : Bool :=
  match l.toList with
  | c1 :: c2 :: c3 :: rest =>
      c1 == fenceChar && c2 == fenceChar && c3 == fenceChar &&
        (rest.dropWhile pyIsWord).all pyIsSpace
  | _ => false

/-- `QUOTE_PATTERN = ^>\s*(.*)$`. -/
def quoteMatch (l : String) : Bool :=
  match l.toList with
  | '>' :: _ => true
  | _ => false

/-- The capture group of `QUOTE_PATTERN`. -/
def quoteGroup (l : String) : String :=
  String.mk ((l.toList.drop 1).dropWhile pyIsSpace)

/-- `LIST_PATTERN = ^(\s*)([-*+]|\d+\.)\s+` (a prefix match). -/
def listMatch (l : String) : Bool :=
  let cs := l.toList.dropWhile pyIsSpace
  match cs with
  | [] => false
  | c :: rest =>
      if c == '-' || c == '*' || c == '+' then
        match rest with
        | [] => false
        | w :: _ => pyIsSpace w
      else if c.isDigit then
        let after := cs.dropWhile Char.isDigit
        match after with
        | '.' :: w :: _ => pyIsSpace w
        | _ => false
      else false

/-- `TABLE_PATTERN = ^\|.*\|$`. -/
def tableMatch (l : String) : Bool :=
  let cs := l.toList
  cs.headD ' ' == '|' && cs.getLastD ' ' == '|' && 2 ≤ cs.length

/-- `HR_PATTERN = ^-{3,}$|^_{3,}$|\*{3,}$`, always applied through
`re.match`, which anchors every alternative at position 0: a line matches
exactly when it consists entirely of at least three `-`, `_` or `*`. -/
def hrMatch (l : String) : Bool :=
  let cs := l.toList
  (cs.all (fun c => c == '-') && 3 ≤ cs.length) ||
  (cs.all (fun c => c == '_') && 3 ≤ cs.length) ||
  (cs.all (fun c => c == '*') && 3 ≤ cs.length)

/-- The stop condition of `_parse_paragraph`'s loop: a paragraph run is
terminated by an empty line, a heading, a code fence, a horizontal rule, a
list item or a quote (a table row does NOT terminate it, faithfully to the
source). -/
def paragraphCont (l : String) : Bool :=
  !(emptyMatch l || (headingMatch l).isSome || codeFenceMatch l ||
    hrMatch l || listMatch l || quoteMatch l)

/-- `MarkdownParser._parse_line` (together with the `_parse_code_block`,
`_parse_quote`, `_parse_list`, `_parse_table`, `_parse_paragraph` helpers it
dispatches to): classify the line at index `i`, returning the produced
element (position still unset) and the number of lines consumed.

The multi-line helpers collect the maximal run of matching lines starting at
`i`; since each is only entered when the line at `i` matches its pattern,
that run is `line :: takeWhile … (drop (i+1) lines)`, which the definition
spells out so that every branch visibly consumes at least one line. -/
def parseLineAt (lines : List String) (i : Nat) : Option MarkdownElement × Nat :=
  let line := lines.getD i ""
  if emptyMatch line then (none, 1)
  else
    match headingMatch line with
    | some (level, content) => (some (mkElement .heading content level line), 1)
    | none =>
      if codeFenceMatch line then
        -- `_parse_code_block`: consume verbatim until the next fence or
        -- end-of-input; the fence lines themselves are both counted.
        let body := (lines.drop (i + 1)).takeWhile (fun l => !codeFenceMatch l)
        (some (mkElement .code_block (String.intercalate "\n" body) 0 line),
         body.length + 2)
      else if quoteMatch line then
        let run := line :: (lines.drop (i + 1)).takeWhile quoteMatch
        (some (mkElement .quote (String.intercalate " " (run.map quoteGroup)) 0 line),
         run.length)
      else if listMatch line then
        let run := line :: (lines.drop (i + 1)).takeWhile listMatch
        (some (mkElement .list (String.intercalate "\n" run) 0 line), run.length)
      else if tableMatch line then
        let run := line :: (lines.drop (i + 1)).takeWhile tableMatch
        (some (mkElement .table (String.intercalate "\n" run) 0 line), run.length)
      else if hrMatch line then
        (some (mkElement .horizontal_rule line 0 line), 1)
      else
        let run := line :: (lines.drop (i + 1)).takeWhile paragraphCont
        (some (mkElement .paragraph (String.intercalate " " run) 0 line), run.length)

/-- The scanning loop of `MarkdownParser.parse`, with a fuel argument (one
unit per input line suffices, by `parseLineAt_consumed_pos` below; see
`parseSteps_fuel_eq`).  `pos` is `len(self.elements)`, assigned to
each appended element exactly as `element.position = len(self.elements)`
does. -/
def parseSteps (lines : List String) : Nat → Nat → Nat → List MarkdownElement
  | 0, _, _ => []
  | fuel + 1, i, pos =>
      if i < lines.length then
        match parseLineAt lines i with
        | (some e, consumed) =>
            { e with position := pos } :: parseSteps lines fuel (i + consumed) (pos + 1)
        | (none, consumed) => parseSteps lines fuel (i + consumed) pos
      else []

/-- `MarkdownParser._extract_title`: the first level-1 heading's content, or
"Untitled". -/
def extractTitle (elements : List MarkdownElement) : String :=
  match elements.find? (fun e => e.type == ElementType.heading && e.level == 1) with
  | some e => e.content
  | none => "Untitled"

/-- `MarkdownParser.parse` / the module-level `parse_markdown`. -/
def parseMarkdown (content : String) : MarkdownDocument :=
  let lines := pySplitLines content
  let elements := parseSteps lines lines.length 0 0
  { elements := elements, title := extractTitle elements }

/-! ## Placement engine (`src/analyzer.py`)

`ContentAnalyzer` and its `analyze` scan.  The rule configuration dictionary
`self.rules` is modelled as a structure whose field defaults are the
`rules.get(key, default)` defaults of the source; `h2_after` may be a Python
bool or a string, modelled by `H2Rule`. -/

/-- `ContentAnalyzer.CONCEPT_KEYWORDS`. -/
def CONCEPT_KEYWORDS : List String :=
  ["原理", "机制", "概念", "流程", "工作原理", "是什么",
   "principle", "mechanism", "concept", "how it works"]

/-- The possible run-time types of the `h2_after` configuration value: the
source tests `h2_rule is True` and then `h2_rule == 'smart'`. -/
inductive H2Rule where
  | asBool (b : Bool)
  | asString (s : String)
deriving DecidableEq, Repr

/-- The rule keys `ContentAnalyzer.analyze` and `_analyze_element` read, with
their `rules.get` defaults. -/
structure PlacementRules where
  min_gap_between_images : Int := 3
  max_images_per_article : Int := 10
  h1_after : Bool := true
  h2_after : H2Rule := .asString "smart"
  long_paragraph_threshold : Int := 150
deriving DecidableEq, Repr

/-- One entry of the `ab_test.variations` configuration list (a dict whose
keys are read with `.get` defaults). -/
structure ABVariationCfg where
  name : Option String := none
  description : Option String := none
  prompt_suffix : Option String := none
deriving DecidableEq, Repr, Inhabited

/-- One generated A/B variant dict. -/
structure ABVariant where
  name : String
  description : String
  prompt : String
deriving DecidableEq, Repr

/-- `ImageDecision` of `src/analyzer.py`. -/
structure ImageDecision where
  element_index : Nat
  need_image : Bool
  image_type : String
  prompt : String
  reason : String
  ab_variants : Option (List ABVariant) := none
  image_source : Option String := none
deriving DecidableEq, Repr

/-- The state of a constructed `ContentAnalyzer`: the rule configuration,
the configured image source, the A/B test configuration, and the prompt
generator (`_generate_prompt`, which may call templates or an LLM) as an
opaque function of the element, the image type and the chosen image source. -/
structure ContentAnalyzer where
  rules : PlacementRules := {}
  image_source : String := "zhipu"
  ab_test_enabled : Bool := false
  ab_variations : List ABVariationCfg := []
  ab_test_size : Int := 2
  promptFn : MarkdownElement → String → String → String := fun _ _ _ => ""

/-- `ContentAnalyzer._determine_image_source`. -/
def determineImageSource (configuredSource : String) (imageType docType : String) :
    String :=
  if imageType == "cover" then configuredSource
  else if docType == "technical" &&
      (imageType == "section" || imageType == "concept" || imageType == "diagram") then
    "mermaid"
  else if docType == "normal" then "unsplash"
  else configuredSource

/-- `ContentAnalyzer._generate_ab_variants`. -/
def generateABVariants (basePrompt : String) (variations : List ABVariationCfg)
    (testSize : Int) : List ABVariant :=
  let actualSize : Int := min testSize (variations.length : Int)
  (List.range actualSize.toNat).map (fun i =>
    let variation := variations.getD i {}
    let name := variation.name.getD ("variant_" ++ toString i)
    let description := variation.description.getD name
    let suffix := variation.prompt_suffix.getD ""
    { name := name, description := description, prompt := basePrompt ++ suffix })

/-- The accumulation loop of `ContentAnalyzer._should_add_section_image`. -/
def shouldAddGo : List MarkdownElement → Nat → Bool
  | [], _ => false
  | el :: rest, totalWords =>
      let tv := el.type.value
      if tv == "heading" then false
      else
        let totalWords :=
          if tv == "paragraph" then totalWords + el.word_count else totalWords
        if 100 < totalWords then true else shouldAddGo rest totalWords

/-- `ContentAnalyzer._should_add_section_image`. -/
def shouldAddSectionImage (doc : MarkdownDocument) (headingIndex : Nat) : Bool :=
  shouldAddGo (doc.elements.drop (headingIndex + 1)) 0

/-- `ContentAnalyzer._create_cover_decision`. -/
def createCoverDecision (A : ContentAnalyzer) (docType : String)
    (element : MarkdownElement) (index : Nat) : ImageDecision :=
  let image_source := determineImageSource A.image_source "cover" docType
  { element_index := index, need_image := true, image_type := "cover",
    prompt := A.promptFn element "cover" image_source,
    reason := "H1 标题后配封面图", image_source := some image_source }

/-- `ContentAnalyzer._create_section_decision`. -/
def createSectionDecision (A : ContentAnalyzer) (docType : String)
    (element : MarkdownElement) (index : Nat) : ImageDecision :=
  let image_type :=
    if CONCEPT_KEYWORDS.any (fun kw => strContains element.content kw) then "concept"
    else "section"
  let image_source := determineImageSource A.image_source image_type docType
  { element_index := index, need_image := true, image_type := image_type,
    prompt := A.promptFn element image_type image_source,
    reason := "H2 标题后配图 (" ++ image_type ++ ")",
    image_source := some image_source }

/-- `ContentAnalyzer._create_atmospheric_decision`. -/
def createAtmosphericDecision (A : ContentAnalyzer) (docType : String)
    (element : MarkdownElement) (index : Nat) : ImageDecision :=
  let image_source := determineImageSource A.image_source "atmospheric" docType
  { element_index := index, need_image := true, image_type := "atmospheric",
    prompt := A.promptFn element "atmospheric" image_source,
    reason := "长段落配图 (" ++ toString element.word_count ++ " 字)",
    image_source := some image_source }

/-- `ContentAnalyzer._analyze_element`: the source is a sequence of `if …:
return …` statements, so a non-firing earlier test falls through to the
later ones. -/
def analyzeElement (A : ContentAnalyzer) (docType : String) (doc : MarkdownDocument)
    (element : MarkdownElement) (index : Nat) : Option ImageDecision :=
  let tv := element.type.value
  if tv == "heading" && element.level == 1 && A.rules.h1_after then
    some (createCoverDecision A docType element index)
  else if tv == "heading" && element.level == 2 &&
      (match A.rules.h2_after with
       | .asBool b => b
       | .asString s => s == "smart" && shouldAddSectionImage doc index) then
    some (createSectionDecision A docType element index)
  else if tv == "paragraph" &&
      A.rules.long_paragraph_threshold ≤ (element.word_count : Int) then
    some (createAtmosphericDecision A docType element index)
  else none

/-- The synthesized cover decision of `ContentAnalyzer.analyze` (emitted
before the main scan when the document has no level-1 heading and `h1_after`
is enabled, attached to the first element with non-blank content).  Note the
source increments `image_count` for it but does NOT update
`last_image_index`. -/
def coverDecisionOf (A : ContentAnalyzer) (docType : String)
    (doc : MarkdownDocument) : Option ImageDecision :=
  let has_h1 := doc.elements.any
    (fun el => el.type.value == "heading" && el.level == 1)
  if !has_h1 && A.rules.h1_after then
    match doc.elements.enum.find?
        (fun p => p.2.content != "" && pyStrip p.2.content != "") with
    | some (title_index, title_element) =>
        let cover_source := determineImageSource A.image_source "cover" docType
        let cover_prompt := A.promptFn title_element "cover" cover_source
        some { element_index := title_index, need_image := true,
               image_type := "cover", prompt := cover_prompt,
               reason := "无H1标题，自动在开头配封面图",
               image_source := some cover_source }
    | none => none
  else none

/-- The main `for i, element in enumerate(doc.elements)` scan of
`ContentAnalyzer.analyze`: `i` is the enumeration counter,
`lastImageIndex`/`imageCount` the loop state; reaching the cap breaks out of
the loop entirely. -/
def analyzeLoop (A : ContentAnalyzer) (docType : String) (doc : MarkdownDocument) :
    List MarkdownElement → Nat → Int → Int → List ImageDecision
  | [], _, _, _ => []
  | el :: rest, i, lastImageIndex, imageCount =>
      if A.rules.max_images_per_article ≤ imageCount then []
      else if (i : Int) - lastImageIndex < A.rules.min_gap_between_images then
        analyzeLoop A docType doc rest (i + 1) lastImageIndex imageCount
      else
        match analyzeElement A docType doc el i with
        | some decision =>
            if decision.need_image then
              let variants :=
                generateABVariants decision.prompt A.ab_variations A.ab_test_size
              let decision :=
                if A.ab_test_enabled && !A.ab_variations.isEmpty then
                  { decision with ab_variants := some variants }
                else decision
              decision :: analyzeLoop A docType doc rest (i + 1) (i : Int)
                (imageCount + 1)
            else analyzeLoop A docType doc rest (i + 1) lastImageIndex imageCount
        | none => analyzeLoop A docType doc rest (i + 1) lastImageIndex imageCount

/-- The decisions the main scan of `ContentAnalyzer.analyze` appends:
`last_image_index` starts at `-min_gap`, `image_count` at 1 exactly when the
synthesized cover decision was appended. -/
def mainScanDecisions (A : ContentAnalyzer) (docType : String)
    (doc : MarkdownDocument) : List ImageDecision :=
  analyzeLoop A docType doc doc.elements 0 (-A.rules.min_gap_between_images)
    (if (coverDecisionOf A docType doc).isSome then 1 else 0)

/-- `ContentAnalyzer.analyze`: the returned decision list is the synthesized
cover decision (when any) followed by the main scan's decisions.  `docType`
is the document classification consumed by `_determine_image_source`
("normal" when classification is disabled or fails).  The in-place element
annotations (`need_image`, `image_type`, `image_prompt`) are write-only
within `analyze` and do not feed back into any decision, so the model
returns the decision list alone. -/
def analyze (A : ContentAnalyzer) (docType : String) (doc : MarkdownDocument) :
    List ImageDecision :=
  (coverDecisionOf A docType doc).toList ++ mainScanDecisions A docType doc

/-! ## Regeneration reconciler (`src/regenerate.py`)

`ExistingImage`, `MarkdownRegenerateParser` and its three operations.  The
input file is its list of lines (as `readlines` yields them, modulo the
trailing newline, which no substring or strip operation here can observe). -/

structure ExistingImage where
  index : Int
  image_type : String
  image_path : String
  line_number : Nat
  is_failed : Bool := false
  prompt : String := ""
deriving DecidableEq, Repr

/-- `MarkdownRegenerateParser.TYPE_NAMES`, in dict insertion order. -/
def TYPE_NAMES : List (String × String) :=
  [("cover", "封面图"), ("section", "章节配图"), ("concept", "概念示意图"),
   ("atmospheric", "氛围插图"), ("diagram", "架构图"), ("code_concept", "代码结构图")]

/-- The keyword list checked (lower-cased) against the line after next when a
fence opens; `"flowchart TD"` is carried verbatim from the source even though
a lower-cased line can never contain the upper-case `TD`. -/
def MERMAID_KEYWORDS : List String :=
  ["statediagram", "sequencediagram", "flowchart", "flowchart TD",
   "classdiagram", "mindmap", "gantt", "erdiagram"]

/-- `re.search` of `!\[([^\]]+)\]\(([^)]+)\)`: the leftmost alt/path pair.
When no match starts at a `![`, the engine restarts one character later; a
match can never start at the `[`, so scanning on from past it is the same. -/
def imageSearchAux : List Char → Option (String × String)
  | [] => none
  | '!' :: '[' :: rest =>
      let alt := rest.takeWhile (fun c => c != ']')
      let after := rest.dropWhile (fun c => c != ']')
      (match after with
       | ']' :: '(' :: r2 =>
          let path := r2.takeWhile (fun c => c != ')')
          let after2 := r2.dropWhile (fun c => c != ')')
          if !alt.isEmpty && !path.isEmpty && !after2.isEmpty then
            some (String.mk alt, String.mk path)
          else imageSearchAux rest
       | _ => imageSearchAux rest)
  | _ :: cs => imageSearchAux cs

/-- The `image_pattern.search (line)` call of `parse_existing_images`. -/
def imageSearch (line : String) : Option (String × String) :=
  imageSearchAux line.toList

/-- `re.search` of `选择第(\d+)张`: the captured number at the leftmost
occurrence followed by digits and `张`. -/
def searchSelectAux : List Char → Option Nat
  | [] => none
  | c :: cs =>
      let l := c :: cs
      let pat := "选择第".toList
      if pat.isPrefixOf l then
        let rest := l.drop pat.length
        let ds := rest.takeWhile Char.isDigit
        if !ds.isEmpty && (rest.drop ds.length).headD ' ' == '张' then
          some (natOfDigits ds)
        else searchSelectAux cs
      else searchSelectAux cs

/-- `MarkdownRegenerateParser._parse_image_info_from_alt_text`: the first
type whose Chinese label occurs in the alt text — and, faithfully to the
source, ALWAYS a `none` index. -/
def parseImageInfoFromAltText (alt_text : String) : Option String × Option Int :=
  match TYPE_NAMES.find? (fun p => strContains alt_text p.2) with
  | some p => (some p.1, none)
  | none => (none, none)

/-- `MarkdownRegenerateParser._is_auto_generated_image`. -/
def isAutoGeneratedImage (alt_text : String) : Bool :=
  TYPE_NAMES.any (fun p => strContains alt_text p.2)

/-- `MarkdownRegenerateParser._parse_image_type_from_context`. -/
def parseImageTypeFromContext (lines : List String) (start_line end_line : Nat) :
    Option String :=
  let context_start := start_line - 10
  let context_end := min lines.length (end_line + 5)
  let context := String.intercalate "\n" ((lines.take context_end).drop context_start)
  let fromCandidate : Option String :=
    if strContains context "<!-- 候选图：从" then
      (TYPE_NAMES.find? (fun p => strContains context p.2)).map (fun p => p.1)
    else none
  match fromCandidate with
  | some t => some t
  | none =>
    let fromCaption := TYPE_NAMES.findSome? (fun p =>
      if strContains context ("文章" ++ pyReplace p.2 "图" "") then
        some (if p.1 == "cover" then "cover" else p.1)
      else if strContains context p.2 then some p.1
      else none)
    match fromCaption with
    | some t => some t
    | none =>
      let mermaid_code := String.intercalate "\n" ((lines.take end_line).drop start_line)
      if strContains mermaid_code "stateDiagram" then some "concept"
      else if strContains mermaid_code "sequenceDiagram" then some "section"
      else if strContains mermaid_code "flowchart" then some "code_concept"
      else if strContains mermaid_code "classDiagram" then some "concept"
      else if strContains mermaid_code "mindmap" then some "cover"
      else none

/-- `MarkdownRegenerateParser._parse_image_info_from_context`. -/
def parseImageInfoFromContext (lines : List String) (line_num : Nat) :
    Option String × Option Int :=
  let lo := line_num - 10
  let branch1 : Option (String × Int) :=
    (List.range' lo (line_num - lo)).findSome? (fun i =>
      let li := pyStrip (lines.getD i "")
      if strContains li "<!-- 候选图：从" then none
      else if pyStartsWith li "<!-- 候选" && strContains li "选择第" then
        let index : Int :=
          match searchSelectAux li.toList with
          | some n => (n : Int) - 1
          | none => 0
        (TYPE_NAMES.find?
            (fun p => strContains li p.2 || strContains (pyLower li) p.1)).map
          (fun p => (p.1, index))
      else none)
  match branch1 with
  | some (t, idx) => (some t, some idx)
  | none =>
      if 0 < line_num then
        let prev_lines :=
          String.intercalate "\n" ((lines.take line_num).drop (line_num - 5))
        match TYPE_NAMES.findSome? (fun p =>
            if strContains prev_lines p.2 then
              some (p.1, ((pyCount prev_lines p.2 : Int) - 1))
            else none) with
        | some (t, idx) => (some t, some idx)
        | none => (none, none)
      else (none, none)

/-- The per-line scan state of `parse_existing_images`. -/
structure RegenState where
  in_mermaid_block : Bool := false
  mermaid_lines : List String := []
  mermaid_start_line : Nat := 0
  type_counters : String → Nat := fun _ => 0
  existing_images : List ExistingImage := []

/-- The `for line_num, line in enumerate(lines)` loop of
`parse_existing_images`: the first argument drives the iteration (it is
always the suffix of `lines` from `line_num` on); lookahead and all context
parsing index into the full `lines`. -/
def regenGo (lines : List String) :
    List String → Nat → RegenState → List ExistingImage
  | [], _, st => st.existing_images
  | line :: restLines, line_num, st =>
      let line_stripped := pyStrip line
      let next_next_line :=
        if line_num + 2 < lines.length then pyStrip (lines.getD (line_num + 2) "")
        else ""
      let has_mermaid_keywords :=
        MERMAID_KEYWORDS.any (fun k => strContains (pyLower next_next_line) k)
      if pyStartsWith line_stripped "```" &&
          (strContains (pyLower line_stripped) "mermaid" || has_mermaid_keywords) then
        regenGo lines restLines (line_num + 1)
          { st with in_mermaid_block := true, mermaid_start_line := line_num,
                    mermaid_lines := [] }
      else if st.in_mermaid_block then
        if pyStartsWith (pyStrip line) "```" && !strContains line "mermaid" then
          let st1 : RegenState :=
            match parseImageTypeFromContext lines st.mermaid_start_line line_num with
            | some image_type =>
                let index := st.type_counters image_type
                let mermaid_code := String.intercalate "\n" st.mermaid_lines
                let entry : ExistingImage :=
                  { index := (index : Int), image_type := image_type,
                    image_path := "MERMAID_CODE:" ++ image_type ++ ":" ++ mermaid_code,
                    line_number := st.mermaid_start_line, is_failed := false }
                { st with in_mermaid_block := false,
                          existing_images := st.existing_images ++ [entry],
                          type_counters := fun t =>
                            if t == image_type then st.type_counters t + 1
                            else st.type_counters t,
                          mermaid_lines := [] }
            | none =>
                { st with in_mermaid_block := false, mermaid_lines := [] }
          regenGo lines restLines (line_num + 1) st1
        else
          let st1 : RegenState :=
            if !pyStartsWith (pyStrip line) "```mermaid" then
              { st with mermaid_lines := st.mermaid_lines ++ [pyRstrip line] }
            else st
          regenGo lines restLines (line_num + 1) st1
      else if strContains line "<!-- 所有候选图生成失败 -->" then
        match parseImageInfoFromContext lines line_num with
        | (some image_type, some index) =>
            let entry : ExistingImage :=
              { index := index, image_type := image_type, image_path := "",
                line_number := line_num, is_failed := true }
            regenGo lines restLines (line_num + 1)
              { st with existing_images := st.existing_images ++ [entry] }
        | _ => regenGo lines restLines (line_num + 1) st
      else
        match imageSearch line with
        | some (alt_text, image_path) =>
            if !isAutoGeneratedImage alt_text then
              regenGo lines restLines (line_num + 1) st
            else if pyStartsWith image_path "MERMAID_CODE:" then
              regenGo lines restLines (line_num + 1) st
            else
              match parseImageInfoFromAltText alt_text with
              | (some image_type, some index) =>
                  let entry : ExistingImage :=
                    { index := index, image_type := image_type,
                      image_path := image_path, line_number := line_num,
                      is_failed := false }
                  regenGo lines restLines (line_num + 1)
                    { st with existing_images := st.existing_images ++ [entry] }
              | _ => regenGo lines restLines (line_num + 1) st
        | none => regenGo lines restLines (line_num + 1) st

/-- `MarkdownRegenerateParser.parse_existing_images` (the recovered list; the
returned raw lines are the input itself). -/
def parseExistingImages (lines : List String) : List ExistingImage :=
  regenGo lines lines 0 {}

/-- Ascending insertion, for Python's `sorted`. -/
def insertAsc (x : Int) : List Int → List Int
  | [] => [x]
  | y :: ys => if x ≤ y then x :: y :: ys else y :: insertAsc x ys

/-- Python's `sorted(set(l))`. -/
def sortedSet (l : List Int) : List Int := l.eraseDups.foldr insertAsc []

/-- `MarkdownRegenerateParser.filter_images_to_regenerate`: exactly one
selector is honoured, in the source's order (`regenerate_index` tested
against `is not None`, `regenerate_type` by truthiness, then
`regenerate_failed`). -/
def filterImagesToRegenerate (existing_images : List ExistingImage)
    (decisions : List ImageDecision) (regenerate_index : Option Int)
    (regenerate_type : Option String) (regenerate_failed : Bool) : List Int :=
  let to_regenerate : List Int :=
    match regenerate_index with
    | some ri => if 0 ≤ ri && ri < (decisions.length : Int) then [ri] else []
    | none =>
        if (regenerate_type.getD "") != "" then
          ((decisions.enum.filter
              (fun p => p.2.image_type == regenerate_type.getD "")).map
            (fun p => (p.1 : Int)))
        else if regenerate_failed then
          ((existing_images.filter
              (fun img => img.is_failed && img.index < (decisions.length : Int))).map
            (fun img => img.index))
        else []
  sortedSet to_regenerate

structure PlanKeepEntry where
  index : Nat
  image_path : String
  image_type : String
deriving DecidableEq, Repr

structure PlanGenEntry where
  index : Nat
  image_type : String
  prompt : String
  reason : String
deriving DecidableEq, Repr

/-- The three buckets of the plan dict built by `create_regenerate_plan`. -/
structure RegeneratePlan where
  keep : List PlanKeepEntry := []
  regenerate : List PlanGenEntry := []
  missing : List PlanGenEntry := []
deriving DecidableEq, Repr

/-- The `for i, decision in enumerate(decisions)` loop of
`create_regenerate_plan`.  `i in existing_indices` (the set of recovered
indices) holds exactly when `find?` below succeeds, and the `next(...)`
lookup returns the first recovered image with that index, which is the same
`find?`. -/
def planGo (existing_images : List ExistingImage) (regenerate_indices : List Int) :
    List ImageDecision → Nat → RegeneratePlan
  | [], _ => {}
  | decision :: rest, i =>
      let p := planGo existing_images regenerate_indices rest (i + 1)
      if regenerate_indices.contains (i : Int) then
        let entry : PlanGenEntry :=
          { index := i, image_type := decision.image_type,
            prompt := decision.prompt, reason := decision.reason }
        { p with regenerate := entry :: p.regenerate }
      else
        match existing_images.find? (fun img => img.index == (i : Int)) with
        | some existing_img =>
            let entry : PlanKeepEntry :=
              { index := i, image_path := existing_img.image_path,
                image_type := existing_img.image_type }
            { p with keep := entry :: p.keep }
        | none =>
            let entry : PlanGenEntry :=
              { index := i, image_type := decision.image_type,
                prompt := decision.prompt, reason := decision.reason }
            { p with missing := entry :: p.missing }

/-- `MarkdownRegenerateParser.create_regenerate_plan`. -/
def createRegeneratePlan (existing_images : List ExistingImage)
    (decisions : List ImageDecision) (regenerate_indices : List Int) :
    RegeneratePlan :=
  planGo existing_images regenerate_indices decisions 0

/-! ## Spec-side policy definition (for the refinement claim about
image-source selection) -/

/-- Modelled from the spec: "`cover` always uses the configured AI backend;
`section`/`concept`/`diagram` under a technical document classification
route to a diagram backend; under a normal classification route to a
stock-photo backend; otherwise fall back to the configured default." -/
def specImageSourcePolicy (configured : String) (imageKind docType : String) :
    String :=
  if imageKind == "cover" then configured
  else if docType == "technical" && imageKind ∈ ["section", "concept", "diagram"] then
    "mermaid"
  else if docType == "normal" then "unsplash"
  else configured

/-! ## Properties and concrete inputs used by the claims -/

/-- The relation between consecutive decisions of the main scan: strictly
increasing element indices that differ by at least the configured gap. -/
def scanRel (g : Int) (d1 d2 : ImageDecision) : Prop :=
  d1.element_index < d2.element_index ∧
    g ≤ (d2.element_index : Int) - (d1.element_index : Int)

/-- The claim's gap property for an unordered pair of decisions: whichever
of the two element positions is smaller, the other is at least `g` away. -/
def gapCompatible (g : Int) (d1 d2 : ImageDecision) : Prop :=
  (d2.element_index ≤ d1.element_index ∨
    g ≤ (d2.element_index : Int) - (d1.element_index : Int)) ∧
  (d1.element_index ≤ d2.element_index ∨
    g ≤ (d1.element_index : Int) - (d2.element_index : Int))

instance (g : Int) (d1 d2 : ImageDecision) : Decidable (gapCompatible g d1 d2) := by
  unfold gapCompatible
  infer_instance

/-- Rules with `h2_after = True`; everything else at its defaults
(`min_gap_between_images = 3`, `max_images_per_article = 10`,
`h1_after = True`). -/
def c1Analyzer : ContentAnalyzer := { rules := { h2_after := .asBool true } }

/-- A document with no level-1 heading: a one-character paragraph followed
by a level-2 heading. -/
def c1Doc : MarkdownDocument := parseMarkdown "x\n\n## Section"

/-- Rules whose image cap is zero. -/
def c2Analyzer : ContentAnalyzer := { rules := { max_images_per_article := 0 } }

/-- A document with no level-1 heading and one non-empty element. -/
def c2Doc : MarkdownDocument := parseMarkdown "x"

/-- Rules whose long-paragraph threshold is 1 character. -/
def c7Analyzer : ContentAnalyzer := { rules := { long_paragraph_threshold := 1 } }

/-- A document that is a single two-character paragraph. -/
def c7Doc : MarkdownDocument := parseMarkdown "xy"

/-- A recovered image at ordinal 0 that is of kind `section` AND marked
failed. -/
def c3Existing : List ExistingImage :=
  [{ index := 0, image_type := "section", image_path := "a.png",
     line_number := 0, is_failed := true }]

/-- A current decision of kind `cover` at ordinal 0. -/
def c3Decision : ImageDecision :=
  { element_index := 0, need_image := true, image_type := "cover",
    prompt := "p", reason := "r" }

/-- The previously assembled file of the spec's `only_failed` scenario: a
caption line, the failure sentinel for the cover, and an intact, labelled
section image. -/
def c4Lines : List String :=
  ["**封面图**", "<!-- 所有候选图生成失败 -->", "![章节配图](images/s.png)"]

def c4CoverDecision : ImageDecision :=
  { element_index := 0, need_image := true, image_type := "cover",
    prompt := "pc", reason := "rc" }

def c4SectionDecision : ImageDecision :=
  { element_index := 3, need_image := true, image_type := "section",
    prompt := "ps", reason := "rs" }

/-- The two current decisions of the scenario, cover then section. -/
def c4Decisions : List ImageDecision := [c4CoverDecision, c4SectionDecision]

/-- The plan the code produces for the scenario under the `only_failed`
selector. -/
def c4Plan : RegeneratePlan :=
  createRegeneratePlan (parseExistingImages c4Lines) c4Decisions
    (filterImagesToRegenerate (parseExistingImages c4Lines) c4Decisions
      none none true)

/-! ## Theorems -/

/-- Every dispatch branch consumes at least one line: this is what makes the
Python `while` loop of `MarkdownParser.parse` terminate. -/
theorem parseLineAt_consumed_pos (lines : List String) (i : Nat) :
    1 ≤ (parseLineAt lines i).2 := by
  unfold parseLineAt
  dsimp only
  split
  · exact Nat.le_refl 1
  · split
    · exact Nat.le_refl 1
    · split
      · exact Nat.le_add_left 1 _
      · split
        · exact Nat.succ_le_succ (Nat.zero_le _)
        · split
          · exact Nat.succ_le_succ (Nat.zero_le _)
          · split
            · exact Nat.succ_le_succ (Nat.zero_le _)
            · split
              · exact Nat.le_refl 1
              · exact Nat.succ_le_succ (Nat.zero_le _)

/-! ## Parser scan: fuel adequacy and line classification -/

/-- Beyond the last line the scan emits nothing, whatever the fuel. -/
lemma parseSteps_nil_of_le (lines : List String) :
    ∀ (fuel i pos : Nat), lines.length ≤ i → parseSteps lines fuel i pos = [] := by
  intro fuel
  cases fuel with
  | zero => intro i pos _; rfl
  | succ g => intro i pos h; unfold parseSteps; rw [if_neg (by omega)]

/-- Any fuel of at least one unit per remaining line yields the same scan
result: the Python `while` loop of `parse` terminates, because every
`_parse_line` call consumes at least one line. -/
lemma parseSteps_fuel_eq (lines : List String) :
    ∀ (f1 f2 i pos : Nat), lines.length - i ≤ f1 → lines.length - i ≤ f2 →
      parseSteps lines f1 i pos = parseSteps lines f2 i pos := by
  intro f1
  induction f1 with
  | zero =>
      intro f2 i pos h1 _
      have hle : lines.length ≤ i := by omega
      rw [parseSteps_nil_of_le lines 0 i pos hle,
        parseSteps_nil_of_le lines f2 i pos hle]
  | succ g ih =>
      intro f2 i pos h1 h2
      by_cases hi : i < lines.length
      · cases f2 with
        | zero => exfalso; omega
        | succ g2 =>
            unfold parseSteps
            rw [if_pos hi, if_pos hi]
            have hcons := parseLineAt_consumed_pos lines i
            cases hp : parseLineAt lines i with
            | mk eOpt c =>
                cases eOpt with
                | some e =>
                    have hc : 1 ≤ c := by rw [hp] at hcons; exact hcons
                    dsimp only
                    rw [ih g2 (i + c) (pos + 1) (by omega) (by omega)]
                | none =>
                    have hc : 1 ≤ c := by rw [hp] at hcons; exact hcons
                    dsimp only
                    rw [ih g2 (i + c) pos (by omega) (by omega)]
      · rw [parseSteps_nil_of_le lines (g + 1) i pos (by omega),
          parseSteps_nil_of_le lines f2 i pos (by omega)]

/-- When a line matches none of the recognized patterns, the dispatch of
`_parse_line` reaches `_parse_paragraph`. -/
lemma parseLineAt_paragraph (lines : List String) (i : Nat)
    (h1 : emptyMatch (lines.getD i "") = false)
    (h2 : headingMatch (lines.getD i "") = none)
    (h3 : codeFenceMatch (lines.getD i "") = false)
    (h4 : quoteMatch (lines.getD i "") = false)
    (h5 : listMatch (lines.getD i "") = false)
    (h6 : tableMatch (lines.getD i "") = false)
    (h7 : hrMatch (lines.getD i "") = false) :
    (parseLineAt lines i).1.map (fun e => e.type) = some ElementType.paragraph := by
  unfold parseLineAt
  dsimp only
  simp only [h1, h2, h3, h4, h5, h6, h7, Bool.false_eq_true, if_false]
  rfl

/-- C9: `MarkdownParser.parse` is total — the scan's fuel of one unit per
input line is exact, so any extra fuel yields the same element list as
`parseMarkdown` — and every non-empty line matching none of the recognized
patterns (heading, code fence, quote, list, table, horizontal rule) is
classified as a paragraph. -/
theorem c9_parser_totality_and_fallback :
    (∀ (content : String) (extra : Nat),
        parseSteps (pySplitLines content)
            ((pySplitLines content).length + extra) 0 0 =
          (parseMarkdown content).elements) ∧
    (∀ (lines : List String) (i : Nat),
        emptyMatch (lines.getD i "") = false →
        headingMatch (lines.getD i "") = none →
        codeFenceMatch (lines.getD i "") = false →
        quoteMatch (lines.getD i "") = false →
        listMatch (lines.getD i "") = false →
        tableMatch (lines.getD i "") = false →
        hrMatch (lines.getD i "") = false →
        (parseLineAt lines i).1.map (fun e => e.type) =
          some ElementType.paragraph) := by
  constructor
  · intro content extra
    exact parseSteps_fuel_eq (pySplitLines content)
      ((pySplitLines content).length + extra) (pySplitLines content).length 0 0
      (by omega) (by omega)
  · intro lines i h1 h2 h3 h4 h5 h6 h7
    exact parseLineAt_paragraph lines i h1 h2 h3 h4 h5 h6 h7

/-- C9 (witness): totality and the paragraph fallback at concrete inputs. -/
theorem c9_witness :
    (parseSteps (pySplitLines "a\nb") ((pySplitLines "a\nb").length + 5) 0 0 =
      (parseMarkdown "a\nb").elements) ∧
    ((parseLineAt ["hello"] 0).1.map (fun e => e.type) =
      some ElementType.paragraph) :=
  ⟨c9_parser_totality_and_fallback.1 "a\nb" 5,
   c9_parser_totality_and_fallback.2 ["hello"] 0 (by decide) (by decide)
     (by decide) (by decide) (by decide) (by decide) (by decide)⟩

/-! ## Lemmas about the placement engine's main scan -/

/-- Every decision `_analyze_element` returns is attached to the element
index it was called with and carries `need_image = True`. -/
lemma analyzeElement_shape (A : ContentAnalyzer) (docType : String)
    (doc : MarkdownDocument) (el : MarkdownElement) (i : Nat) :
    ∀ d, analyzeElement A docType doc el i = some d →
      d.element_index = i ∧ d.need_image = true := by
  intro d h
  unfold analyzeElement at h
  dsimp only at h
  rcases hb1 : (el.type.value == "heading" && el.level == 1 && A.rules.h1_after)
      with _ | _ <;>
    rw [hb1] at h <;> simp only [if_true, if_false, Bool.false_eq_true] at h
  case true => cases h; exact ⟨rfl, rfl⟩
  case false =>
    rcases hb2 : (el.type.value == "heading" && el.level == 2 &&
        (match A.rules.h2_after with
         | .asBool b => b
         | .asString s => s == "smart" && shouldAddSectionImage doc i)) with _ | _ <;>
      rw [hb2] at h <;> simp only [if_true, if_false, Bool.false_eq_true] at h
    case true => cases h; exact ⟨rfl, rfl⟩
    case false =>
      rcases hb3 : (el.type.value == "paragraph" &&
          decide (A.rules.long_paragraph_threshold ≤ (el.word_count : Int)))
          with _ | _ <;>
        rw [hb3] at h <;> simp only [if_true, if_false, Bool.false_eq_true] at h
      case true => cases h; exact ⟨rfl, rfl⟩
      case false => exact Option.noConfusion h

/-- Attaching A/B variants does not change a decision's element index. -/
lemma abWrap_element_index (A : ContentAnalyzer) (dec : ImageDecision)
    (variants : List ABVariant) :
    (if A.ab_test_enabled && !A.ab_variations.isEmpty then
        { dec with ab_variants := some variants }
      else dec).element_index = dec.element_index := by
  split <;> rfl

/-- The first decision the main scan emits while scanning the element
suffix starting at counter `i` sits at an element index `≥ i` and respects
the gap from `last`. -/
lemma analyzeLoop_head (A : ContentAnalyzer) (docType : String)
    (doc : MarkdownDocument) :
    ∀ (l : List MarkdownElement) (i : Nat) (last count : Int)
      (d : ImageDecision) (r : List ImageDecision),
      analyzeLoop A docType doc l i last count = d :: r →
      i ≤ d.element_index ∧
        A.rules.min_gap_between_images ≤ (d.element_index : Int) - last := by
  intro l
  induction l with
  | nil => intro i last count d r h; exact List.noConfusion h
  | cons el tail ih =>
    intro i last count d r h
    unfold analyzeLoop at h
    by_cases hcap : A.rules.max_images_per_article ≤ count
    · rw [if_pos hcap] at h; exact List.noConfusion h
    · rw [if_neg hcap] at h
      by_cases hgap : (i : Int) - last < A.rules.min_gap_between_images
      · rw [if_pos hgap] at h
        obtain ⟨h1, h2⟩ := ih (i + 1) last count d r h
        exact ⟨by omega, h2⟩
      · rw [if_neg hgap] at h
        cases hae : analyzeElement A docType doc el i with
        | none =>
            rw [hae] at h
            obtain ⟨h1, h2⟩ := ih (i + 1) last count d r h
            exact ⟨by omega, h2⟩
        | some dec =>
            rw [hae] at h
            dsimp only at h
            by_cases hni : dec.need_image = true
            · rw [if_pos hni] at h
              obtain ⟨hd, -⟩ := List.cons.inj h
              have hidx := (analyzeElement_shape A docType doc el i dec hae).1
              have hwrap := abWrap_element_index A dec
                (generateABVariants dec.prompt A.ab_variations A.ab_test_size)
              rw [← hd, hwrap, hidx]
              exact ⟨Nat.le_refl i, by omega⟩
            · rw [if_neg hni] at h
              obtain ⟨h1, h2⟩ := ih (i + 1) last count d r h
              exact ⟨by omega, h2⟩

lemma scanRel_trans (g : Int) : Transitive (scanRel g) := by
  intro a b c hab hbc
  unfold scanRel at *
  omega

/-- The main scan's output is a chain for `scanRel`: indices strictly
increase and consecutive accepted indices differ by at least the gap. -/
lemma analyzeLoop_chain (A : ContentAnalyzer) (docType : String)
    (doc : MarkdownDocument) :
    ∀ (l : List MarkdownElement) (i : Nat) (last count : Int),
      List.Chain' (scanRel A.rules.min_gap_between_images)
        (analyzeLoop A docType doc l i last count) := by
  intro l
  induction l with
  | nil => intro i last count; simp [analyzeLoop]
  | cons el tail ih =>
    intro i last count
    unfold analyzeLoop
    by_cases hcap : A.rules.max_images_per_article ≤ count
    · rw [if_pos hcap]; exact List.chain'_nil
    · rw [if_neg hcap]
      by_cases hgap : (i : Int) - last < A.rules.min_gap_between_images
      · rw [if_pos hgap]; exact ih (i + 1) last count
      · rw [if_neg hgap]
        cases hae : analyzeElement A docType doc el i with
        | none => exact ih (i + 1) last count
        | some dec =>
            dsimp only
            by_cases hni : dec.need_image = true
            · rw [if_pos hni]
              rw [List.chain'_cons']
              refine ⟨?_, ih (i + 1) (i : Int) (count + 1)⟩
              intro b hb
              cases hrec : analyzeLoop A docType doc tail (i + 1) (i : Int) (count + 1) with
              | nil => rw [hrec] at hb; simp at hb
              | cons d2 r2 =>
                  rw [hrec] at hb
                  simp only [List.head?_cons, Option.mem_def, Option.some.injEq] at hb
                  obtain ⟨hge, hgap2⟩ := analyzeLoop_head A docType doc tail (i + 1) (i : Int) (count + 1) d2 r2 hrec
                  have hidx := (analyzeElement_shape A docType doc el i dec hae).1
                  have hwrap := abWrap_element_index A dec
                    (generateABVariants dec.prompt A.ab_variations A.ab_test_size)
                  unfold scanRel
                  rw [← hb, hwrap, hidx]
                  omega
            · rw [if_neg hni]; exact ih (i + 1) last count

/-- Once the cap is reached the scan emits nothing more. -/
lemma analyzeLoop_nil_of_cap (A : ContentAnalyzer) (docType : String)
    (doc : MarkdownDocument) :
    ∀ (l : List MarkdownElement) (i : Nat) (last count : Int),
      A.rules.max_images_per_article ≤ count →
      analyzeLoop A docType doc l i last count = [] := by
  intro l
  cases l with
  | nil => intro i last count _; rfl
  | cons el tail => intro i last count h; unfold analyzeLoop; rw [if_pos h]

/-- Below the cap, the scan can only grow `image_count` up to the cap. -/
lemma analyzeLoop_length_le (A : ContentAnalyzer) (docType : String)
    (doc : MarkdownDocument) :
    ∀ (l : List MarkdownElement) (i : Nat) (last count : Int),
      count < A.rules.max_images_per_article →
      count + ((analyzeLoop A docType doc l i last count).length : Int) ≤
        A.rules.max_images_per_article := by
  intro l
  induction l with
  | nil => intro i last count h; simp [analyzeLoop]; omega
  | cons el tail ih =>
    intro i last count h
    unfold analyzeLoop
    rw [if_neg (by omega)]
    by_cases hgap : (i : Int) - last < A.rules.min_gap_between_images
    · rw [if_pos hgap]; exact ih (i + 1) last count h
    · rw [if_neg hgap]
      cases hae : analyzeElement A docType doc el i with
      | none => exact ih (i + 1) last count h
      | some dec =>
          dsimp only
          by_cases hni : dec.need_image = true
          · rw [if_pos hni]
            by_cases hlt : count + 1 < A.rules.max_images_per_article
            · have := ih (i + 1) (i : Int) (count + 1) hlt
              simp only [List.length_cons]
              push_cast
              omega
            · have h0 := analyzeLoop_nil_of_cap A docType doc tail (i + 1) (i : Int)
                (count + 1) (by omega)
              rw [h0]
              simp
              omega
          · rw [if_neg hni]; exact ih (i + 1) last count h

/-- C1 (amended): any two decisions accepted by the MAIN SCAN satisfy the
gap invariant (for positions `p1 < p2`, `p2 - p1 >= min_gap_between_images`);
the synthesized cover decision is exempt, because emitting it does not
update `last_image_index`, so `analyze`'s full list is the cover decision
(when synthesized) prepended to that gap-compliant main-scan list. -/
theorem c1_gap_invariant_amended :
    ∀ (A : ContentAnalyzer) (docType : String) (doc : MarkdownDocument),
      List.Pairwise (gapCompatible A.rules.min_gap_between_images)
        (mainScanDecisions A docType doc) ∧
      analyze A docType doc =
        (coverDecisionOf A docType doc).toList ++ mainScanDecisions A docType doc := by
  intro A dt doc
  refine ⟨?_, rfl⟩
  haveI : IsTrans ImageDecision (scanRel A.rules.min_gap_between_images) :=
    ⟨fun a b c hab hbc => scanRel_trans _ hab hbc⟩
  unfold mainScanDecisions
  have hpw := List.chain'_iff_pairwise.mp
    (analyzeLoop_chain A dt doc doc.elements 0 (-A.rules.min_gap_between_images)
      (if (coverDecisionOf A dt doc).isSome then 1 else 0))
  exact hpw.imp (fun hab => ⟨Or.inr hab.2, Or.inl (Nat.le_of_lt hab.1)⟩)

/-- C7 (amended): the decisions accepted by the main scan have strictly
increasing `element_index`; the synthesized cover decision, prepended to
them, is not part of that ordering (it can share or exceed the first
main-scan index). -/
theorem c7_ordering_amended :
    ∀ (A : ContentAnalyzer) (docType : String) (doc : MarkdownDocument),
      List.Pairwise (fun d1 d2 : ImageDecision => d1.element_index < d2.element_index)
        (mainScanDecisions A docType doc) ∧
      analyze A docType doc =
        (coverDecisionOf A docType doc).toList ++ mainScanDecisions A docType doc := by
  intro A dt doc
  refine ⟨?_, rfl⟩
  haveI : IsTrans ImageDecision (scanRel A.rules.min_gap_between_images) :=
    ⟨fun a b c hab hbc => scanRel_trans _ hab hbc⟩
  unfold mainScanDecisions
  have hpw := List.chain'_iff_pairwise.mp
    (analyzeLoop_chain A dt doc doc.elements 0 (-A.rules.min_gap_between_images)
      (if (coverDecisionOf A dt doc).isSome then 1 else 0))
  exact hpw.imp (fun hab => hab.1)

/-- C2 (amended): the decision list has length at most
`max (max_images_per_article) 1`; whenever `max_images_per_article >= 1` the
cap `len (decisions) <= max_images_per_article` does hold.  The synthesized
cover decision counts against the cap but is not itself gated by it, which
is what makes the extra `1` necessary when the cap is zero or negative. -/
theorem c2_cap_invariant_amended :
    ∀ (A : ContentAnalyzer) (docType : String) (doc : MarkdownDocument),
      ((analyze A docType doc).length : Int) ≤ max A.rules.max_images_per_article 1 ∧
      (1 ≤ A.rules.max_images_per_article →
        ((analyze A docType doc).length : Int) ≤ A.rules.max_images_per_article) := by
  intro A dt doc
  unfold analyze mainScanDecisions
  cases hc : coverDecisionOf A dt doc with
  | none =>
      simp only [hc, Option.toList_none, Option.isSome_none, List.nil_append,
        Bool.false_eq_true, if_false]
      by_cases hm : 0 < A.rules.max_images_per_article
      · have hle := analyzeLoop_length_le A dt doc doc.elements 0
          (-A.rules.min_gap_between_images) 0 hm
        constructor
        · rw [le_max_iff]; left; omega
        · intro _; omega
      · have h0 := analyzeLoop_nil_of_cap A dt doc doc.elements 0
          (-A.rules.min_gap_between_images) 0 (by omega)
        rw [h0]
        constructor
        · rw [le_max_iff]; right; simp
        · intro h1; omega
  | some cd =>
      simp only [hc, Option.toList_some, Option.isSome_some, if_true,
        List.singleton_append, List.length_cons]
      by_cases hm : 1 < A.rules.max_images_per_article
      · have hle := analyzeLoop_length_le A dt doc doc.elements 0
          (-A.rules.min_gap_between_images) 1 hm
        constructor
        · rw [le_max_iff]; left; push_cast; omega
        · intro _; push_cast; omega
      · have h0 := analyzeLoop_nil_of_cap A dt doc doc.elements 0
          (-A.rules.min_gap_between_images) 1 (by omega)
        rw [h0]
        constructor
        · rw [le_max_iff]; right; simp
        · intro h1; push_cast; simp; omega
/-- C1 (counterexample): on a document with no H1 whose first element is a
short paragraph followed by an H2 (rules: `h2_after = True`, gap 3), the
synthesized cover decision at position 0 and the main-scan decision at
position 1 violate the gap invariant. -/
theorem c1_counterexample :
    ((analyze c1Analyzer "normal" c1Doc).map (fun d => d.element_index) = [0, 1]) ∧
    c1Analyzer.rules.min_gap_between_images = 3 ∧
    ¬ List.Pairwise (gapCompatible c1Analyzer.rules.min_gap_between_images)
        (analyze c1Analyzer "normal" c1Doc) := by
  refine ⟨by decide, by decide, by decide⟩

/-- C2 (counterexample): with `max_images_per_article = 0` and a document
with no H1, the synthesized cover decision is emitted anyway, so the
returned list has length 1 > 0. -/
theorem c2_counterexample :
    (analyze c2Analyzer "normal" c2Doc).length = 1 ∧
    c2Analyzer.rules.max_images_per_article = 0 ∧
    ¬ (((analyze c2Analyzer "normal" c2Doc).length : Int) ≤
        c2Analyzer.rules.max_images_per_article) := by
  refine ⟨by decide, by decide, by decide⟩

/-- C7 (counterexample): a single long paragraph (threshold 1) with no H1
yields the synthesized cover decision AND an atmospheric decision, both at
element index 0 — the list is not strictly increasing. -/
theorem c7_counterexample :
    ((analyze c7Analyzer "normal" c7Doc).map (fun d => d.element_index) = [0, 0]) ∧
    ((analyze c7Analyzer "normal" c7Doc).map (fun d => d.image_type) =
      ["cover", "atmospheric"]) ∧
    ¬ List.Pairwise (fun d1 d2 : ImageDecision => d1.element_index < d2.element_index)
        (analyze c7Analyzer "normal" c7Doc) := by
  refine ⟨by decide, by decide, by decide⟩

/-- C8: `_determine_image_source` equals the spec's selection policy
(cover to the configured backend; section/concept/diagram under a technical
classification to the diagram backend; any other kind under a normal
classification to the stock-photo backend; otherwise the configured
default), and identical arguments always give identical backends. -/
theorem c8_image_source_selection :
    ∀ (configured imageType docType imageType2 docType2 : String),
      imageType = imageType2 → docType = docType2 →
      determineImageSource configured imageType docType =
        specImageSourcePolicy configured imageType docType ∧
      determineImageSource configured imageType docType =
        determineImageSource configured imageType2 docType2 := by
  intro c t d t2 d2 ht hd
  subst ht
  subst hd
  refine ⟨?_, rfl⟩
  simp only [determineImageSource, specImageSourcePolicy, Bool.and_eq_true,
    Bool.or_eq_true, beq_iff_eq, decide_eq_true_eq, List.mem_cons,
    List.not_mem_nil, or_false, or_assoc]

/-- C8 (witness): the policy evaluated at a concrete argument triple. -/
theorem c8_witness :
    determineImageSource "zhipu" "section" "technical" =
        specImageSourcePolicy "zhipu" "section" "technical" ∧
      determineImageSource "zhipu" "section" "technical" =
        determineImageSource "zhipu" "section" "technical" :=
  c8_image_source_selection "zhipu" "section" "technical" "section" "technical" rfl rfl

/-! ## Lemmas about `create_regenerate_plan` -/

/-- Each decision lands in exactly one bucket, so the bucket sizes add up to
the number of decisions. -/
lemma planGo_lengths (ex : List ExistingImage) (ri : List Int) :
    ∀ (ds : List ImageDecision) (i : Nat),
      (planGo ex ri ds i).keep.length + (planGo ex ri ds i).regenerate.length +
        (planGo ex ri ds i).missing.length = ds.length := by
  intro ds
  induction ds with
  | nil => intro i; rfl
  | cons d rest ih =>
    intro i
    unfold planGo
    dsimp only
    by_cases h1 : ri.contains (i : Int) = true
    · rw [if_pos h1]
      have := ih (i + 1)
      simp only [List.length_cons]
      omega
    · rw [if_neg h1]
      cases hf : ex.find? (fun img => img.index == (i : Int)) with
      | some img =>
          have := ih (i + 1)
          simp only [List.length_cons]
          omega
      | none =>
          have := ih (i + 1)
          simp only [List.length_cons]
          omega

/-- Membership of an ordinal in the keep bucket, characterised. -/
lemma planGo_keep_mem (ex : List ExistingImage) (ri : List Int) :
    ∀ (ds : List ImageDecision) (i j : Nat),
      (j ∈ (planGo ex ri ds i).keep.map PlanKeepEntry.index) ↔
        (i ≤ j ∧ j < i + ds.length ∧ ri.contains (j : Int) = false ∧
          (ex.find? (fun img => img.index == (j : Int))).isSome = true) := by
  intro ds
  induction ds with
  | nil =>
      intro i j
      constructor
      · intro h; simp [planGo] at h
      · rintro ⟨h1, h2, -, -⟩
        simp only [List.length_nil] at h2
        exfalso
        omega
  | cons d rest ih =>
    intro i j
    unfold planGo
    dsimp only
    by_cases h1 : ri.contains (i : Int) = true
    · rw [if_pos h1]
      rw [ih (i + 1) j]
      constructor
      · rintro ⟨ha, hb, hc, hd⟩
        exact ⟨by omega, by simp only [List.length_cons]; omega, hc, hd⟩
      · rintro ⟨ha, hb, hc, hd⟩
        have hne : j ≠ i := by
          rintro rfl
          rw [h1] at hc
          exact Bool.noConfusion hc
        simp only [List.length_cons] at hb
        exact ⟨by omega, by omega, hc, hd⟩
    · rw [if_neg h1]
      cases hf : ex.find? (fun img => img.index == (i : Int)) with
      | some img =>
          simp only [List.map_cons, List.mem_cons]
          rw [ih (i + 1) j]
          constructor
          · intro hmem
            rcases hmem with heq | ⟨ha, hb, hc, hd⟩
            · have heq2 : j = i := heq
              subst heq2
              refine ⟨Nat.le_refl j, by simp only [List.length_cons]; omega,
                eq_false_of_ne_true h1, ?_⟩
              rw [hf]; rfl
            · exact ⟨by omega, by simp only [List.length_cons]; omega, hc, hd⟩
          · rintro ⟨ha, hb, hc, hd⟩
            by_cases hj : j = i
            · left; exact hj
            · right
              simp only [List.length_cons] at hb
              exact ⟨by omega, by omega, hc, hd⟩
      | none =>
          rw [ih (i + 1) j]
          constructor
          · rintro ⟨ha, hb, hc, hd⟩
            exact ⟨by omega, by simp only [List.length_cons]; omega, hc, hd⟩
          · rintro ⟨ha, hb, hc, hd⟩
            have hne : j ≠ i := by
              rintro rfl
              rw [hf] at hd
              exact Bool.noConfusion hd
            simp only [List.length_cons] at hb
            exact ⟨by omega, by omega, hc, hd⟩

/-- Membership of an ordinal in the regenerate bucket, characterised. -/
lemma planGo_regen_mem (ex : List ExistingImage) (ri : List Int) :
    ∀ (ds : List ImageDecision) (i j : Nat),
      (j ∈ (planGo ex ri ds i).regenerate.map PlanGenEntry.index) ↔
        (i ≤ j ∧ j < i + ds.length ∧ ri.contains (j : Int) = true) := by
  intro ds
  induction ds with
  | nil =>
      intro i j
      constructor
      · intro h; simp [planGo] at h
      · rintro ⟨h1, h2, -⟩
        simp only [List.length_nil] at h2
        exfalso
        omega
  | cons d rest ih =>
    intro i j
    unfold planGo
    dsimp only
    by_cases h1 : ri.contains (i : Int) = true
    · rw [if_pos h1]
      simp only [List.map_cons, List.mem_cons]
      rw [ih (i + 1) j]
      constructor
      · intro hmem
        rcases hmem with heq | ⟨ha, hb, hc⟩
        · have heq2 : j = i := heq
          subst heq2
          exact ⟨Nat.le_refl j, by simp only [List.length_cons]; omega, h1⟩
        · exact ⟨by omega, by simp only [List.length_cons]; omega, hc⟩
      · rintro ⟨ha, hb, hc⟩
        by_cases hj : j = i
        · left; exact hj
        · right
          simp only [List.length_cons] at hb
          exact ⟨by omega, by omega, hc⟩
    · rw [if_neg h1]
      have step :
          (j ∈ (planGo ex ri rest (i + 1)).regenerate.map PlanGenEntry.index) ↔
            (i ≤ j ∧ j < i + (d :: rest).length ∧ ri.contains (j : Int) = true) := by
        rw [ih (i + 1) j]
        constructor
        · rintro ⟨ha, hb, hc⟩
          exact ⟨by omega, by simp only [List.length_cons]; omega, hc⟩
        · rintro ⟨ha, hb, hc⟩
          have hne : j ≠ i := by
            rintro rfl
            exact h1 hc
          simp only [List.length_cons] at hb
          exact ⟨by omega, by omega, hc⟩
      cases hf : ex.find? (fun img => img.index == (i : Int)) with
      | some img => exact step
      | none => exact step

/-- Membership of an ordinal in the missing bucket, characterised. -/
lemma planGo_missing_mem (ex : List ExistingImage) (ri : List Int) :
    ∀ (ds : List ImageDecision) (i j : Nat),
      (j ∈ (planGo ex ri ds i).missing.map PlanGenEntry.index) ↔
        (i ≤ j ∧ j < i + ds.length ∧ ri.contains (j : Int) = false ∧
          (ex.find? (fun img => img.index == (j : Int))).isSome = false) := by
  intro ds
  induction ds with
  | nil =>
      intro i j
      constructor
      · intro h; simp [planGo] at h
      · rintro ⟨h1, h2, -, -⟩
        simp only [List.length_nil] at h2
        exfalso
        omega
  | cons d rest ih =>
    intro i j
    unfold planGo
    dsimp only
    by_cases h1 : ri.contains (i : Int) = true
    · rw [if_pos h1]
      rw [ih (i + 1) j]
      constructor
      · rintro ⟨ha, hb, hc, hd⟩
        exact ⟨by omega, by simp only [List.length_cons]; omega, hc, hd⟩
      · rintro ⟨ha, hb, hc, hd⟩
        have hne : j ≠ i := by
          rintro rfl
          rw [h1] at hc
          exact Bool.noConfusion hc
        simp only [List.length_cons] at hb
        exact ⟨by omega, by omega, hc, hd⟩
    · rw [if_neg h1]
      cases hf : ex.find? (fun img => img.index == (i : Int)) with
      | some img =>
          rw [ih (i + 1) j]
          constructor
          · rintro ⟨ha, hb, hc, hd⟩
            exact ⟨by omega, by simp only [List.length_cons]; omega, hc, hd⟩
          · rintro ⟨ha, hb, hc, hd⟩
            have hne : j ≠ i := by
              rintro rfl
              rw [hf] at hd
              exact Bool.noConfusion hd
            simp only [List.length_cons] at hb
            exact ⟨by omega, by omega, hc, hd⟩
      | none =>
          simp only [List.map_cons, List.mem_cons]
          rw [ih (i + 1) j]
          constructor
          · intro hmem
            rcases hmem with heq | ⟨ha, hb, hc, hd⟩
            · have heq2 : j = i := heq
              subst heq2
              refine ⟨Nat.le_refl j, by simp only [List.length_cons]; omega,
                eq_false_of_ne_true h1, ?_⟩
              rw [hf]; rfl
            · exact ⟨by omega, by simp only [List.length_cons]; omega, hc, hd⟩
          · rintro ⟨ha, hb, hc, hd⟩
            by_cases hj : j = i
            · left; exact hj
            · right
              simp only [List.length_cons] at hb
              exact ⟨by omega, by omega, hc, hd⟩

/-- C6: for every list of decisions, recovered images and regenerate
indices, the plan's bucket sizes sum to the number of decisions, and the
three buckets are pairwise disjoint over decision ordinals. -/
theorem c6_reconciliation_completeness :
    ∀ (existing_images : List ExistingImage) (decisions : List ImageDecision)
      (regenerate_indices : List Int),
      ((createRegeneratePlan existing_images decisions regenerate_indices).keep.length +
        (createRegeneratePlan existing_images decisions regenerate_indices).regenerate.length +
        (createRegeneratePlan existing_images decisions regenerate_indices).missing.length =
        decisions.length) ∧
      List.Disjoint
        ((createRegeneratePlan existing_images decisions regenerate_indices).keep.map
          PlanKeepEntry.index)
        ((createRegeneratePlan existing_images decisions regenerate_indices).regenerate.map
          PlanGenEntry.index) ∧
      List.Disjoint
        ((createRegeneratePlan existing_images decisions regenerate_indices).keep.map
          PlanKeepEntry.index)
        ((createRegeneratePlan existing_images decisions regenerate_indices).missing.map
          PlanGenEntry.index) ∧
      List.Disjoint
        ((createRegeneratePlan existing_images decisions regenerate_indices).regenerate.map
          PlanGenEntry.index)
        ((createRegeneratePlan existing_images decisions regenerate_indices).missing.map
          PlanGenEntry.index) := by
  intro ex ds ri
  refine ⟨planGo_lengths ex ri ds 0, ?_, ?_, ?_⟩
  · intro j hk hr
    obtain ⟨-, -, hc, -⟩ := (planGo_keep_mem ex ri ds 0 j).mp hk
    obtain ⟨-, -, hc2⟩ := (planGo_regen_mem ex ri ds 0 j).mp hr
    rw [hc] at hc2
    exact Bool.noConfusion hc2
  · intro j hk hm
    obtain ⟨-, -, -, hd⟩ := (planGo_keep_mem ex ri ds 0 j).mp hk
    obtain ⟨-, -, -, hd2⟩ := (planGo_missing_mem ex ri ds 0 j).mp hm
    rw [hd] at hd2
    exact Bool.noConfusion hd2
  · intro j hr hm
    obtain ⟨-, -, hc⟩ := (planGo_regen_mem ex ri ds 0 j).mp hr
    obtain ⟨-, -, hc2, -⟩ := (planGo_missing_mem ex ri ds 0 j).mp hm
    rw [hc] at hc2
    exact Bool.noConfusion hc2

/-- C3 (amended): a decision ordinal is placed in the keep bucket exactly
when it is not selected for forced regeneration and SOME recovered
ExistingImage has that ordinal — `create_regenerate_plan` never consults the
image's kind nor its `is_failed` flag. -/
theorem c3_keep_condition_amended :
    ∀ (existing_images : List ExistingImage) (decisions : List ImageDecision)
      (regenerate_indices : List Int) (j : Nat),
      (j ∈ (createRegeneratePlan existing_images decisions
              regenerate_indices).keep.map PlanKeepEntry.index) ↔
        (j < decisions.length ∧ regenerate_indices.contains (j : Int) = false ∧
          existing_images.any (fun img => img.index == (j : Int)) = true) := by
  intro ex ds ri j
  rw [show createRegeneratePlan ex ds ri = planGo ex ri ds 0 from rfl]
  rw [planGo_keep_mem ex ri ds 0 j]
  have hfind : (ex.find? (fun img => img.index == (j : Int))).isSome =
      ex.any (fun img => img.index == (j : Int)) := by
    induction ex with
    | nil => rfl
    | cons img rest ihex =>
        by_cases hp : (img.index == (j : Int)) = true
        · simp [List.find?, List.any, hp]
        · simp only [List.find?, List.any]
          rw [Bool.eq_false_iff.mpr hp]
          simpa using ihex
  rw [hfind]
  constructor
  · rintro ⟨-, hb, hc, hd⟩
    exact ⟨by omega, hc, hd⟩
  · rintro ⟨hb, hc, hd⟩
    exact ⟨Nat.zero_le j, by omega, hc, hd⟩
/-- C3 (counterexample): with one recovered image at ordinal 0 of kind
`section` and marked failed, against one current `cover` decision and no
forced-regeneration selection, ordinal 0 is nevertheless placed in keep:
no recovered image matches the decision's kind unfailed, refuting the
claim's "only if". -/
theorem c3_counterexample :
    ((createRegeneratePlan c3Existing [c3Decision] []).keep.map
        PlanKeepEntry.index = [0]) ∧
    (c3Existing.any (fun img => img.index == (0 : Int) &&
        img.image_type == c3Decision.image_type && !img.is_failed) = false) ∧
    ((createRegeneratePlan c3Existing [c3Decision] []).keep.map
        PlanKeepEntry.image_type = ["section"]) := by
  refine ⟨by decide, by decide, by decide⟩

/-- C3 (witness): the amended characterisation applied at ordinal 0 of the
concrete scenario. -/
theorem c3_witness :
    0 ∈ (createRegeneratePlan c3Existing [c3Decision] []).keep.map
        PlanKeepEntry.index :=
  (c3_keep_condition_amended c3Existing [c3Decision] [] 0).mpr (by decide)

/-- What the code actually produces on the spec's `only_failed` scenario:
the intact section image is NOT recovered (its recovered ordinal is always
`None`), so the plan is `keep = [], regenerate = [cover], missing =
[section]` instead of the specified `keep = [section], regenerate = [cover],
missing = []`. -/
theorem c4_only_failed_scenario_divergence :
    (parseExistingImages c4Lines =
      [{ index := 0, image_type := "cover", image_path := "",
         line_number := 1, is_failed := true }]) ∧
    (filterImagesToRegenerate (parseExistingImages c4Lines) c4Decisions
        none none true = [0]) ∧
    c4Plan.keep = [] ∧
    c4Plan.regenerate.map PlanGenEntry.index = [0] ∧
    c4Plan.regenerate.map PlanGenEntry.image_type = ["cover"] ∧
    c4Plan.missing.map PlanGenEntry.index = [1] ∧
    c4Plan.missing.map PlanGenEntry.image_type = ["section"] := by
  refine ⟨by decide, by decide, by decide, by decide, by decide, by decide, by decide⟩

/-- A standard image reference line whose alt text carries the recognized
`cover` label is nevertheless never recovered: `_parse_image_info_from_alt_text`
returns a `None` ordinal for every alt text, and the recording guard requires
the ordinal to be non-`None`. -/
theorem c5_standard_image_never_recovered :
    (isAutoGeneratedImage "封面图" = true) ∧
    (imageSearch "![封面图](images/cover.png)" =
      some ("封面图", "images/cover.png")) ∧
    (parseExistingImages ["![封面图](images/cover.png)"] = []) ∧
    (∀ alt_text : String, (parseImageInfoFromAltText alt_text).2 = none) := by
  refine ⟨by decide, by decide, by decide, ?_⟩
  intro alt_text
  unfold parseImageInfoFromAltText
  cases TYPE_NAMES.find? (fun p => strContains alt_text p.2) <;> rfl

/-- The dispatch outcome when the line is a horizontal rule and nothing
earlier matches. -/
lemma parseLineAt_hr (lines : List String) (i : Nat)
    (h1 : emptyMatch (lines.getD i "") = false)
    (h2 : headingMatch (lines.getD i "") = none)
    (h3 : codeFenceMatch (lines.getD i "") = false)
    (h4 : quoteMatch (lines.getD i "") = false)
    (h5 : listMatch (lines.getD i "") = false)
    (h6 : tableMatch (lines.getD i "") = false)
    (h7 : hrMatch (lines.getD i "") = true) :
    (parseLineAt lines i).1.map (fun e => e.type) =
        some ElementType.horizontal_rule ∧
      (parseLineAt lines i).2 = 1 := by
  unfold parseLineAt
  dsimp only
  simp only [h1, h2, h3, h4, h5, h6, h7, Bool.false_eq_true, if_false, if_true]
  exact ⟨rfl, trivial⟩

/-- Pattern evaluations on a line made wholly of `*`, at least three. -/
lemma allStar_matchers (l : String) (t : List Char)
    (hcs : l.toList = '*' :: '*' :: '*' :: t)
    (hall : t.all (fun c => c == '*') = true) :
    emptyMatch l = false ∧ headingMatch l = none ∧ codeFenceMatch l = false ∧
    quoteMatch l = false ∧ listMatch l = false ∧ tableMatch l = false ∧
    hrMatch l = true := by
  have hsp : pyIsSpace '*' = false := by decide
  refine ⟨?_, ?_, ?_, ?_, ?_, ?_, ?_⟩
  · unfold emptyMatch
    rw [hcs]
    simp [List.all_cons, hsp]
  · unfold headingMatch
    rw [hcs]
    simp [List.takeWhile_cons]
  · unfold codeFenceMatch
    rw [hcs]
    rfl
  · unfold quoteMatch
    rw [hcs]
    rfl
  · unfold listMatch
    rw [hcs]
    simp [List.dropWhile_cons, hsp]
  · unfold tableMatch
    rw [hcs]
    simp
  · unfold hrMatch
    rw [hcs]
    simp [List.all_cons, hall]

lemma getLastD_mem : ∀ (l : List Char) (d : Char), l ≠ [] → l.getLastD d ∈ l := by
  intro l
  induction l with
  | nil => intro d h; exact absurd rfl h
  | cons a t ih =>
      intro d _
      rw [List.getLastD_cons]
      cases ht : t with
      | nil => simp
      | cons b t2 =>
          have := ih a (by rw [ht]; exact List.cons_ne_nil b t2)
          rw [ht] at this
          exact List.mem_cons_of_mem a this

/-- Pattern evaluations on a line ending in `*` that also contains a
non-asterisk character. -/
lemma endStar_matchers (l : String)
    (hlast : l.toList.getLastD ' ' = '*')
    (hany : l.toList.any (fun c => c != '*') = true) :
    emptyMatch l = false ∧ hrMatch l = false := by
  have hne : l.toList ≠ [] := by
    intro h
    rw [h] at hlast
    exact absurd hlast (by decide)
  have hmem : '*' ∈ l.toList := by
    rw [← hlast]
    exact getLastD_mem l.toList ' ' hne
  constructor
  · unfold emptyMatch
    apply eq_false_of_ne_true
    intro hT
    have := List.all_eq_true.mp hT '*' hmem
    exact absurd this (by decide)
  · unfold hrMatch
    have hdash : l.toList.all (fun c => c == '-') = false := by
      apply eq_false_of_ne_true
      intro hT
      have := List.all_eq_true.mp hT '*' hmem
      exact absurd this (by decide)
    have hund : l.toList.all (fun c => c == '_') = false := by
      apply eq_false_of_ne_true
      intro hT
      have := List.all_eq_true.mp hT '*' hmem
      exact absurd this (by decide)
    have hstar : l.toList.all (fun c => c == '*') = false := by
      apply eq_false_of_ne_true
      intro hT
      obtain ⟨c, hc, hcne⟩ := List.any_eq_true.mp hany
      have hceq := List.all_eq_true.mp hT c hc
      rw [beq_iff_eq] at hceq
      subst hceq
      simp at hcne
    simp only [hdash, hund, hstar, Bool.false_and, Bool.false_or, Bool.or_false]

/-- C10 (counterexample): the prose line "hello ***" — not empty, not a
heading, fence, quote, list or table, and ending in three asterisks — is
classified as a paragraph, not as a horizontal rule. -/
theorem c10_counterexample :
    ((parseMarkdown "hello ***").elements.map (fun e => e.type) =
      [ElementType.paragraph]) ∧
    ((parseMarkdown "hello ***").elements.map (fun e => e.type) ≠
      [ElementType.horizontal_rule]) := by
  refine ⟨by decide, by decide⟩

/-- C10 (amended): under `re.match` every alternative of `HR_PATTERN` is
anchored at the start of the line, so the missing `^` on the asterisk
alternative has no effect; a line wholly of 3+ asterisks is classified
`horizontal_rule` (consuming one line), while a line that merely ends in
`***` but contains another character — and matches none of the other
patterns — is classified `paragraph`. -/
theorem c10_asterisk_hr_amended :
    (∀ (lines : List String) (i : Nat),
        (lines.getD i "").toList.all (fun c => c == '*') = true →
        3 ≤ (lines.getD i "").toList.length →
        (parseLineAt lines i).1.map (fun e => e.type) =
            some ElementType.horizontal_rule ∧
          (parseLineAt lines i).2 = 1) ∧
    (∀ (lines : List String) (i : Nat),
        headingMatch (lines.getD i "") = none →
        codeFenceMatch (lines.getD i "") = false →
        quoteMatch (lines.getD i "") = false →
        listMatch (lines.getD i "") = false →
        tableMatch (lines.getD i "") = false →
        (lines.getD i "").toList.getLastD ' ' = '*' →
        (lines.getD i "").toList.any (fun c => c != '*') = true →
        (parseLineAt lines i).1.map (fun e => e.type) =
          some ElementType.paragraph) := by
  constructor
  · intro lines i hall hlen
    rcases hcs : (lines.getD i "").toList with _ | ⟨c1, t1⟩
    · rw [hcs] at hlen; exfalso; simp at hlen
    · rcases ht1 : t1 with _ | ⟨c2, t2⟩
      · rw [hcs, ht1] at hlen; exfalso; simp at hlen
      · rcases ht2 : t2 with _ | ⟨c3, t3⟩
        · rw [hcs, ht1, ht2] at hlen; exfalso; simp at hlen
        · subst ht1
          subst ht2
          rw [hcs] at hall
          simp only [List.all_cons, Bool.and_eq_true, beq_iff_eq] at hall
          obtain ⟨rfl, rfl, rfl, hall3⟩ := hall
          obtain ⟨m1, m2, m3, m4, m5, m6, m7⟩ :=
            allStar_matchers (lines.getD i "") t3 hcs hall3
          exact parseLineAt_hr lines i m1 m2 m3 m4 m5 m6 m7
  · intro lines i h2 h3 h4 h5 h6 hlast hany
    obtain ⟨hempty, hhr⟩ := endStar_matchers (lines.getD i "") hlast hany
    exact parseLineAt_paragraph lines i hempty h2 h3 h4 h5 h6 hhr

/-- C10 (witness): the amended classification at the concrete lines
consisting of `***` alone and of `a ***`. -/
theorem c10_witness :
    ((parseLineAt ["***"] 0).1.map (fun e => e.type) =
        some ElementType.horizontal_rule ∧
      (parseLineAt ["***"] 0).2 = 1) ∧
    ((parseLineAt ["a ***"] 0).1.map (fun e => e.type) =
      some ElementType.paragraph) :=
  ⟨c10_asterisk_hr_amended.1 ["***"] 0 (by decide) (by decide),
   c10_asterisk_hr_amended.2 ["a ***"] 0 (by decide) (by decide) (by decide)
     (by decide) (by decide) (by decide) (by decide)⟩
